/-
Verification of the arc kernel's heap (src/unnamed/part_001) and interrupt
dispatch / IRQ routing (src/kernel/arc/cpu/tss.c) against their
natural-language specification.

The C code is shallowly embedded: the heap's cyclic doubly-linked node list
is represented as an address-ordered `List heap_node_t`; the external
collaborators `pmm` and `vmm` are represented by an explicit environment
that records the outcome of each `pmm_alloc` / `vmm_map` call (so that
failure injection can be expressed), the current virtual-to-physical map,
and the trace of `pmm_free` calls.  Machine addresses are `Nat`; the C
sources never overflow the address arithmetic modelled here.
-/
import Mathlib

namespace Arc

/-- Modelled from the spec: `FRAME_SIZE` comes from a memory-management
header that is not under `src/`; a frame is one page, 4096 bytes on x86-64
(the spec speaks of page-granular allocation, one header page per node). -/
def FRAME_SIZE : Nat := 4096

/-- Modelled from the spec: `PG_WRITABLE` page-flag bit (header not under
`src/`); its numeric value never influences the modelled observables. -/
def PG_WRITABLE : Nat := 1

/-- Modelled from the spec: `PG_NO_EXEC` page-flag bit (header not under
`src/`); its numeric value never influences the modelled observables. -/
def PG_NO_EXEC : Nat := 2

/-- Modelled from the spec: `HEAP_W` caller flag bit (heap.h is not under
`src/`). -/
def HEAP_W : Nat := 1

/-- Modelled from the spec: `HEAP_X` caller flag bit (heap.h is not under
`src/`). -/
def HEAP_X : Nat := 2

/-- The three states of a heap node, `HEAP_NODE_FREE` / `HEAP_NODE_RESERVED`
/ `HEAP_NODE_ALLOCATED` in the source. -/
inductive heap_state where
  | FREE
  | RESERVED
  | ALLOCATED
deriving DecidableEq, Repr

/-- One `heap_node_t` of the source.  The `next`/`prev` pointers of the C
struct are represented by the node's position in an address-ordered list;
`start` is the first payload page (inclusive) and `end_` (the C field is
named `end`, a Lean keyword) the last payload page, exclusive.  The node's
own header page sits at address `start - FRAME_SIZE`, which is the value of
the C pointer to the node. -/
structure heap_node_t where
  state : heap_state
  start : Nat
  end_ : Nat
deriving DecidableEq, Repr

/-- The environment supplied by `pmm` and `vmm`.  `pmmResults` is the list
of physical addresses the successive `pmm_alloc()` calls will return (0 is
the C null, i.e. an injected failure; an exhausted list means every further
call succeeds with an irrelevant address).  `vmmMapOk` likewise scripts the
success of the successive `vmm_map` calls (exhausted list: success).
`vmmMapped` is the current virtual-to-physical mapping and `pmmFreed` the
trace of arguments passed to `pmm_free`, in call order. -/
structure Env where
  pmmResults : List Nat
  vmmMapOk : List Bool
  vmmMapped : List (Nat × Nat)
  pmmFreed : List Nat
deriving DecidableEq, Repr

/-- `pmm_alloc()`: pop the next scripted result (0 = failure).  When the
script is exhausted the call succeeds, returning a fresh-enough dummy
frame. -/
def pmm_alloc (e : Env) : Nat × Env :=
  match e.pmmResults with
  | [] => (FRAME_SIZE, e)
  | r :: rest => (r, { e with pmmResults := rest })

/-- `pmm_free(phy)`: append the freed frame to the trace. -/
def pmm_free (phy : Nat) (e : Env) : Env :=
  { e with pmmFreed := e.pmmFreed ++ [phy] }

/-- First mapping of virtual address `v`, if any. -/
def vmm_lookup (m : List (Nat × Nat)) (v : Nat) : Option Nat :=
  match m with
  | [] => none
  | (a, p) :: rest => if a = v then some p else vmm_lookup rest v

/-- Remove the mapping of virtual address `v`. -/
def vmm_remove (m : List (Nat × Nat)) (v : Nat) : List (Nat × Nat) :=
  match m with
  | [] => []
  | (a, p) :: rest => if a = v then rest else (a, p) :: vmm_remove rest v

/-- `vmm_map(virt, phy, flags)`: per the scripted outcome, install the
mapping and report success, or report failure.  The flags argument does not
influence any observable modelled here and is not recorded. -/
def vmm_map (virt phy flags : Nat) (e : Env) : Bool × Env :=
  match e.vmmMapOk with
  | [] => (true, { e with vmmMapped := e.vmmMapped ++ [(virt, phy)] })
  | ok :: rest =>
    if ok then
      (true, { e with vmmMapOk := rest, vmmMapped := e.vmmMapped ++ [(virt, phy)] })
    else
      (false, { e with vmmMapOk := rest })

/-- `vmm_unmap(virt)`: remove and return the mapped physical address, or 0
(the C null) when the page is not mapped. -/
def vmm_unmap (virt : Nat) (e : Env) : Nat × Env :=
  match vmm_lookup e.vmmMapped virt with
  | some phy => (phy, { e with vmmMapped := vmm_remove e.vmmMapped virt })
  | none => (0, e)

/-- The `PAGE_ALIGN` macro: round up to a multiple of the page size. -/
def PAGE_ALIGN (x : Nat) : Nat := ((x + FRAME_SIZE - 1) / FRAME_SIZE) * FRAME_SIZE

/-- The successive page addresses visited by a C loop
`for (page = s; page < e; page += FRAME_SIZE)`. -/
def pageRange (s e : Nat) : List Nat :=
  (List.range ((e - s + FRAME_SIZE - 1) / FRAME_SIZE)).map (fun i => s + i * FRAME_SIZE)

/-- The first loop of `_heap_free`: for every payload page, `vmm_unmap` it
and `pmm_free` the recovered frame; frames that were never mapped come back
as 0 and are skipped. -/
def free_payload_frames (pages : List Nat) (e : Env) : Env :=
  match pages with
  | [] => e
  | p :: rest =>
    let r := vmm_unmap p e
    free_payload_frames rest (if r.1 ≠ 0 then pmm_free r.1 r.2 else r.2)

/-- Split the node list around the node whose payload starts at `ptr`
(i.e. the node the C code reaches as `(heap_node_t *)(ptr - FRAME_SIZE)`),
returning the nodes before it, the node, and the nodes after it. -/
def findSplit (ptr : Nat) : List heap_node_t → Option (List heap_node_t × heap_node_t × List heap_node_t)
  | [] => none
  | n :: rest =>
    if n.start = ptr then some ([], n, rest)
    else
      match findSplit ptr rest with
      | none => none
      | some (b, x, a) => some (n :: b, x, a)

/-- `_heap_free(ptr)`.  `ptr` is interpreted as a payload address, so the
header is at `ptr - FRAME_SIZE`; when no tracked node has that header the C
code dereferences untracked memory, which is undefined behaviour, modelled
as `none`.  The source's coalesce-with-previous branch reuses the stale
local `next` (the address of the node's original successor header) in its
`pmm_free(vmm_unmap((uintptr_t) next))` call, and this model reproduces
that faithfully. -/
def _heap_free (ptr : Nat) (heap : List heap_node_t) (e : Env) :
    Option (List heap_node_t × Env) :=
  match findSplit ptr heap with
  | none => none
  | some (before, node0, after) =>
    let e1 := if node0.state = heap_state.ALLOCATED then
        free_payload_frames (pageRange node0.start node0.end_) e
      else e
    let node1 : heap_node_t := { node0 with state := heap_state.FREE }
    let next_addr : Nat :=
      match after.head? with
      | some nx => nx.start - FRAME_SIZE
      | none => 0
    let step2 : heap_node_t × List heap_node_t × Env :=
      match after with
      | nx :: rest =>
        if nx.state = heap_state.FREE then
          let r := vmm_unmap next_addr e1
          ({ node1 with end_ := nx.end_ }, rest, pmm_free r.1 r.2)
        else (node1, after, e1)
      | [] => (node1, after, e1)
    let node2 := step2.1
    let after2 := step2.2.1
    let e3 := step2.2.2
    match before.getLast? with
    | some pv =>
      if pv.state = heap_state.FREE then
        let r := vmm_unmap next_addr e3
        some (before.dropLast ++ ({ pv with end_ := node2.end_ } :: after2),
              pmm_free r.1 r.2)
      else some (before ++ node2 :: after2, e3)
    | none => some (before ++ node2 :: after2, e3)

/-- `find_node(size)`: first-fit walk over the list.  The result is the
list as a zipper around the chosen node (already marked `RESERVED`, as in
the source), or `none` when no free node fits.  The split branch follows
the source: allocate a frame for the new header at
`(uintptr_t) node + size + FRAME_SIZE` (the node pointer is
`start - FRAME_SIZE`), map it, and only on success splice the new free node
in and truncate the chosen node's `end`. -/
def find_node (size : Nat) : List heap_node_t → Env →
    Option (List heap_node_t × heap_node_t × List heap_node_t) × Env
  | [], e => (none, e)
  | node :: rest, e =>
    if node.state ≠ heap_state.FREE then
      let r := find_node size rest e
      (r.1.map (fun x => (node :: x.1, x.2.1, x.2.2)), r.2)
    else if node.end_ - node.start < size then
      let r := find_node size rest e
      (r.1.map (fun x => (node :: x.1, x.2.1, x.2.2)), r.2)
    else
      let split_result : (heap_node_t × List heap_node_t) × Env :=
        if FRAME_SIZE * 2 ≤ (node.end_ - node.start) - size then
          let p := pmm_alloc e
          if p.1 ≠ 0 then
            let next_addr := node.start - FRAME_SIZE + size + FRAME_SIZE
            let m := vmm_map next_addr p.1 (PG_WRITABLE ||| PG_NO_EXEC) p.2
            if m.1 then
              let next : heap_node_t :=
                { state := heap_state.FREE,
                  start := node.start - FRAME_SIZE + size + FRAME_SIZE * 2,
                  end_ := node.end_ }
              (({ node with end_ := next_addr }, next :: rest), m.2)
            else ((node, rest), m.2)
          else ((node, rest), p.2)
        else ((node, rest), e)
      (some ([], { split_result.1.1 with state := heap_state.RESERVED },
             split_result.1.2),
       split_result.2)

/-- The per-page loop of `_heap_alloc` with `phy_alloc` set: `pmm_alloc` a
frame and `vmm_map` it for every payload page; on either failure, roll back
through `_heap_free(node)` — the source passes the node (header) pointer
`node_ptr`, not the payload address.  Returns the final heap and
environment together with the success flag; `none` propagates an undefined
rollback. -/
def alloc_map_pages (pages : List Nat) (map_flags node_ptr : Nat)
    (heap : List heap_node_t) (e : Env) : Option (Bool × List heap_node_t × Env) :=
  match pages with
  | [] => some (true, heap, e)
  | page :: rest =>
    let p := pmm_alloc e
    if p.1 = 0 then
      match _heap_free node_ptr heap p.2 with
      | none => none
      | some (h2, e2) => some (false, h2, e2)
    else
      let m := vmm_map page p.1 map_flags p.2
      if m.1 then alloc_map_pages rest map_flags node_ptr heap m.2
      else
        match _heap_free node_ptr heap m.2 with
        | none => none
        | some (h2, e2) => some (false, h2, e2)

/-- `_heap_alloc(size, flags, phy_alloc)`.  The returned `Nat` is the C
return value: the payload address `(uintptr_t) node + FRAME_SIZE` on
success and 0 (null) on failure; `none` marks undefined behaviour reached
through the rollback path. -/
def _heap_alloc (size flags : Nat) (phy_alloc : Bool)
    (heap : List heap_node_t) (e : Env) : Option (Nat × List heap_node_t × Env) :=
  let size := PAGE_ALIGN size
  match find_node size heap e with
  | (none, e1) => some (0, heap, e1)
  | (some (before, node0, after), e1) =>
    if phy_alloc then
      let node : heap_node_t := { node0 with state := heap_state.ALLOCATED }
      let heap1 := before ++ node :: after
      let map_flags : Nat :=
        (if flags &&& HEAP_W ≠ 0 then PG_WRITABLE else 0) |||
        (if flags &&& HEAP_X = 0 then PG_NO_EXEC else 0)
      match alloc_map_pages (pageRange node.start (node.start + size)) map_flags
          (node.start - FRAME_SIZE) heap1 e1 with
      | none => none
      | some (true, h, e2) => some (node.start - FRAME_SIZE + FRAME_SIZE, h, e2)
      | some (false, h, e2) => some (0, h, e2)
    else
      some (node0.start - FRAME_SIZE + FRAME_SIZE, before ++ node0 :: after, e1)

/-- `heap_alloc(size, flags)` (the heap spinlock adds nothing to this
sequential model). -/
def heap_alloc (size flags : Nat) (heap : List heap_node_t) (e : Env) :
    Option (Nat × List heap_node_t × Env) :=
  _heap_alloc size flags true heap e

/-- `heap_reserve(size)`. -/
def heap_reserve (size : Nat) (heap : List heap_node_t) (e : Env) :
    Option (Nat × List heap_node_t × Env) :=
  _heap_alloc size 0 false heap e

/-- `heap_free(ptr)`. -/
def heap_free (ptr : Nat) (heap : List heap_node_t) (e : Env) :
    Option (List heap_node_t × Env) :=
  _heap_free ptr heap e

/-
Interrupt dispatch and IRQ routing, from src/kernel/arc/cpu/tss.c (the
portion after the tss.c prologue, the `intr_dispatch` / routing unit).
Handlers are function pointers in C, compared by address in
`_intr_unroute_intr`; they are modelled as bare `Nat` identities.  Calls
into the interrupt controller and into the handlers themselves are
observable only as a trace of events.
-/

/-- Modelled from the spec: `FAULT31`, the last architectural fault vector
(the fault range is the fixed prefix 0..31); the defining header is not
under `src/`. -/
def FAULT31 : Nat := 31

/-- Modelled from the spec: the single `SPURIOUS` vector, 0xFF; the
defining header is not under `src/`. -/
def SPURIOUS : Nat := 255

/-- Modelled from the spec: `IRQ0`, the first IRQ vector, 0x20 (spec
scenario 3); the defining header is not under `src/`. -/
def IRQ0 : Nat := 32

/-- Modelled from the spec: `IRQS`, the size of the IRQ vector band, 224
(spec scenario 3); the defining header is not under `src/`. -/
def IRQS : Nat := 224

/-- Active polarity of an IRQ line (`POLARITY_HIGH` / `POLARITY_LOW`). -/
inductive polarity_t where
  | POLARITY_HIGH
  | POLARITY_LOW
deriving DecidableEq, Repr

/-- Trigger mode of an IRQ line (`TRIGGER_EDGE` / `TRIGGER_LEVEL`). -/
inductive trigger_t where
  | TRIGGER_EDGE
  | TRIGGER_LEVEL
deriving DecidableEq, Repr

/-- An `irq_tuple_t`: line number, polarity and trigger mode. -/
structure irq_tuple_t where
  irq : Nat
  active_polarity : polarity_t
  trigger : trigger_t
deriving DecidableEq, Repr

/-- A discovered I/O APIC record (`ioapic_t`): identifier, first owned IRQ
and number of owned IRQs.  The MMIO address plays no role here and the
`next` link is the list structure. -/
structure ioapic_t where
  id : Nat
  irq_base : Nat
  irqs : Nat
deriving DecidableEq, Repr

/-- The observable events of the dispatch and routing paths: `ic_ack`,
a handler invocation, a `panic` carrying the unhandled vector number (the
source formats it into the message "unhandled interrupt %d" and never
returns), insertion of a handler node into a vector's chain, removal of
one, `ioapic_route` and `ioapic_mask`. -/
inductive Event where
  | ack (intr : Nat)
  | invoke (handler : Nat)
  | panicked (intr : Nat)
  | install (intr handler : Nat)
  | remove (intr handler : Nat)
  | route (apicId : Nat) (tuple : irq_tuple_t) (intr : Nat)
  | mask (apicId : Nat) (tuple : irq_tuple_t)
deriving DecidableEq, Repr

/-- The `intr_handlers` table: each vector's chain of handler identities,
head first. -/
def IntrTable := Nat → List Nat

/-- Overwrite one vector's chain. -/
def table_set (t : IntrTable) (i : Nat) (v : List Nat) : IntrTable :=
  fun j => if j = i then v else t j

/-- Event classifiers used to state ordering properties. -/
def isAck : Event → Bool
  | .ack _ => true
  | _ => false

def isInvoke : Event → Bool
  | .invoke _ => true
  | _ => false

def isInstall : Event → Bool
  | .install _ _ => true
  | _ => false

def isRemove : Event → Bool
  | .remove _ _ => true
  | _ => false

def isRoute : Event → Bool
  | .route _ _ _ => true
  | _ => false

def isMask : Event → Bool
  | .mask _ _ => true
  | _ => false

/-- In trace `tr`, every event satisfying `p` occurs strictly before every
event satisfying `q`. -/
def precedesAll (p q : Event → Bool) (tr : List Event) : Prop :=
  tr.filter (fun ev => p ev || q ev) = tr.filter p ++ tr.filter q

/-- `intr_dispatch(state)` with `state->id = intr`: acknowledge unless the
vector is a fault or the spurious vector, then panic on an empty chain or
invoke every handler head-to-tail.  The result is the event trace. -/
def intr_dispatch (t : IntrTable) (intr : Nat) : List Event :=
  (if FAULT31 < intr ∧ intr ≠ SPURIOUS then [Event.ack intr] else []) ++
  (match t intr with
   | [] => [Event.panicked intr]
   | chain => chain.map Event.invoke)

/-- `_intr_route_intr(intr, handler)`: allocate a chain node (`mallocOk`
scripts the heap allocation's success), cons it onto the chain head.
Returns the C result together with the updated table and the trace. -/
def _intr_route_intr (mallocOk : Bool) (t : IntrTable) (intr handler : Nat) :
    Bool × IntrTable × List Event :=
  if mallocOk then
    (true, table_set t intr (handler :: t intr), [Event.install intr handler])
  else
    (false, t, [])

/-- Unlink the first occurrence of `handler` from a chain. -/
def removeFirst (handler : Nat) : List Nat → List Nat
  | [] => []
  | x :: xs => if x = handler then xs else x :: removeFirst handler xs

/-- `_intr_unroute_intr(intr, handler)`: walk the chain, unlink and free
the first matching node; silently do nothing when the handler is absent. -/
def _intr_unroute_intr (t : IntrTable) (intr handler : Nat) :
    IntrTable × List Event :=
  if handler ∈ t intr then
    (table_set t intr (removeFirst handler (t intr)), [Event.remove intr handler])
  else
    (t, [])

/-- `intr_route_intr` (the write lock and interrupt mask add nothing to
this sequential model). -/
def intr_route_intr (mallocOk : Bool) (t : IntrTable) (intr handler : Nat) :
    Bool × IntrTable × List Event :=
  _intr_route_intr mallocOk t intr handler

/-- `intr_unroute_intr`. -/
def intr_unroute_intr (t : IntrTable) (intr handler : Nat) :
    IntrTable × List Event :=
  _intr_unroute_intr t intr handler

/-- The source's per-APIC ownership test: `irq >= irq_first && irq <
irq_last` with `irq_last = irq_base + irqs - 1`.  (Note this excludes the
last owned IRQ of the half-open range `[irq_base, irq_base + irqs)`.) -/
def irq_in_apic (apic : ioapic_t) (irq : Nat) : Bool :=
  apic.irq_base ≤ irq && irq < apic.irq_base + apic.irqs - 1

/-- The loop of `intr_route_irq` over the discovered I/O APICs: at the
first APIC owning the line, register the handler, then program the APIC
(`ioapic_route` is called whether or not the registration succeeded) and
return the registration's result. -/
def intr_route_irq_go (mallocOk : Bool) (t : IntrTable) (tuple : irq_tuple_t)
    (handler intr : Nat) : List ioapic_t → Bool × IntrTable × List Event
  | [] => (false, t, [])
  | apic :: rest =>
    if irq_in_apic apic tuple.irq then
      let r := _intr_route_intr mallocOk t intr handler
      (r.1, r.2.1, r.2.2 ++ [Event.route apic.id tuple intr])
    else
      intr_route_irq_go mallocOk t tuple handler intr rest

/-- `intr_route_irq(tuple, handler)` over the discovered APIC records:
the vector is `(irq % IRQS) + IRQ0`. -/
def intr_route_irq (apics : List ioapic_t) (mallocOk : Bool) (t : IntrTable)
    (tuple : irq_tuple_t) (handler : Nat) : Bool × IntrTable × List Event :=
  intr_route_irq_go mallocOk t tuple handler ((tuple.irq % IRQS) + IRQ0) apics

/-- `intr_unroute_irq(tuple, handler)`: mask the line at every APIC owning
it, then unconditionally unregister the handler from the computed
vector. -/
def intr_unroute_irq (apics : List ioapic_t) (t : IntrTable)
    (tuple : irq_tuple_t) (handler : Nat) : IntrTable × List Event :=
  let intr := (tuple.irq % IRQS) + IRQ0
  let maskEvents := apics.filterMap (fun apic =>
    if irq_in_apic apic tuple.irq then some (Event.mask apic.id tuple) else none)
  let r := _intr_unroute_intr t intr handler
  (r.1, maskEvents ++ r.2)

/-
Concrete inputs used by the closed counterexample and bug-exhibiting
theorems below.
-/

/-- A heap of three address-adjacent nodes: a FREE node, an ALLOCATED node
and a FREE node (headers at 4096, 12288 and 20480; one payload page
each). -/
def heapC1 : List heap_node_t :=
  [{ state := heap_state.FREE, start := 8192, end_ := 12288 },
   { state := heap_state.ALLOCATED, start := 16384, end_ := 20480 },
   { state := heap_state.FREE, start := 24576, end_ := 28672 }]

/-- The matching environment: the three header pages are mapped to frames
101, 102 and 103 and the allocated node's payload page to frame 201. -/
def envC1 : Env :=
  { pmmResults := [], vmmMapOk := [],
    vmmMapped := [(4096, 101), (12288, 102), (20480, 103), (16384, 201)],
    pmmFreed := [] }

/-- A heap of a single one-page FREE node (header at 4096). -/
def heapC2 : List heap_node_t :=
  [{ state := heap_state.FREE, start := 8192, end_ := 12288 }]

/-- The matching environment, scripting the first `pmm_alloc` of the
allocation to fail. -/
def envC2 : Env :=
  { pmmResults := [0], vmmMapOk := [], vmmMapped := [(4096, 11)], pmmFreed := [] }

/-- A single discovered I/O APIC owning ISA-style lines 0..3. -/
def apicsC8 : List ioapic_t := [{ id := 1, irq_base := 0, irqs := 4 }]

/-- An IRQ tuple for line 100, owned by no discovered controller. -/
def tupleC8 : irq_tuple_t :=
  { irq := 100, active_polarity := polarity_t.POLARITY_HIGH,
    trigger := trigger_t.TRIGGER_EDGE }

/-- A routing table carrying handler 7 on vector `(100 % IRQS) + IRQ0 =
132` and nothing else. -/
def tC8 : IntrTable := fun j => if j = 132 then [7] else []

/-
Theorems.
-/

/-- Filtering a pure invocation trace for invocations keeps it whole. -/
theorem filter_isInvoke_map_invoke (l : List Nat) :
    (l.map Event.invoke).filter isInvoke = l.map Event.invoke := by
  induction l with
  | nil => rfl
  | cons a l ih => simp [isInvoke, ih]

/-- A pure invocation trace contains no acknowledgement. -/
theorem filter_isAck_map_invoke (l : List Nat) :
    (l.map Event.invoke).filter isAck = [] := by
  induction l with
  | nil => rfl
  | cons a l ih => simp [isAck, ih]

/-- A node that is not FREE, or is too small, is skipped by the first-fit
walk of `find_node`. -/
theorem find_node_skip (size : Nat) (node : heap_node_t)
    (rest : List heap_node_t) (e : Env)
    (h : node.state ≠ heap_state.FREE ∨ node.end_ - node.start < size) :
    find_node size (node :: rest) e
      = ((find_node size rest e).1.map (fun x => (node :: x.1, x.2.1, x.2.2)),
         (find_node size rest e).2) := by
  rcases h with h | h
  · simp [find_node, h]
  · by_cases hf : node.state ≠ heap_state.FREE
    · simp [find_node, hf]
    · simp [find_node, hf, h]

/-- C3: when the first-fit walk selects a FREE node with
`extra = node_size - size ≥ 2·FRAME_SIZE`, then (a) if `pmm_alloc` yields a
frame and `vmm_map` succeeds at `node + size + FRAME_SIZE` (the node
pointer is `start - FRAME_SIZE`), a new FREE node covering
`[node + size + 2·FRAME_SIZE, old_end)` is spliced directly after the
selected node, whose `end` is truncated to the new header address and which
leaves RESERVED; (b) if `pmm_alloc` returns null, or (c) `vmm_map` fails,
the split is silently skipped and the selected node is used intact with its
original range. -/
theorem find_node_split_spec (size : Nat) (before after : List heap_node_t)
    (node : heap_node_t) (ps : List Nat) (oks : List Bool)
    (m : List (Nat × Nat)) (fr : List Nat)
    (hskip : ∀ n ∈ before,
      n.state ≠ heap_state.FREE ∨ n.end_ - n.start < size)
    (hfree : node.state = heap_state.FREE)
    (hfit : size ≤ node.end_ - node.start)
    (hextra : FRAME_SIZE * 2 ≤ node.end_ - node.start - size) :
    (∀ phy, phy ≠ 0 →
       find_node size (before ++ node :: after) ⟨phy :: ps, true :: oks, m, fr⟩
         = (some (before,
             { state := heap_state.RESERVED, start := node.start,
               end_ := node.start - FRAME_SIZE + size + FRAME_SIZE },
             { state := heap_state.FREE,
               start := node.start - FRAME_SIZE + size + FRAME_SIZE * 2,
               end_ := node.end_ } :: after),
            ⟨ps, oks,
             m ++ [(node.start - FRAME_SIZE + size + FRAME_SIZE, phy)],
             fr⟩)) ∧
    (find_node size (before ++ node :: after) ⟨0 :: ps, oks, m, fr⟩
       = (some (before,
           { state := heap_state.RESERVED, start := node.start,
             end_ := node.end_ }, after),
          ⟨ps, oks, m, fr⟩)) ∧
    (∀ phy, phy ≠ 0 →
       find_node size (before ++ node :: after) ⟨phy :: ps, false :: oks, m, fr⟩
         = (some (before,
             { state := heap_state.RESERVED, start := node.start,
               end_ := node.end_ }, after),
            ⟨ps, oks, m, fr⟩)) := by
  induction before with
  | nil =>
    have hnf : ¬ node.state ≠ heap_state.FREE := by simp [hfree]
    have hns : ¬ (node.end_ - node.start < size) := Nat.not_lt.mpr hfit
    refine ⟨?_, ?_, ?_⟩
    · intro phy hphy
      simp [find_node, hnf, hns, hextra, pmm_alloc, vmm_map, hphy]
    · simp [find_node, hnf, hns, hextra, pmm_alloc]
    · intro phy hphy
      simp [find_node, hnf, hns, hextra, pmm_alloc, vmm_map, hphy]
  | cons hd tl ih =>
    have hhd := hskip hd (List.mem_cons_self _ _)
    have htl : ∀ n ∈ tl, n.state ≠ heap_state.FREE ∨ n.end_ - n.start < size :=
      fun n hn => hskip n (List.mem_cons_of_mem _ hn)
    rcases ih htl with ⟨ihA, ihB, ihC⟩
    refine ⟨?_, ?_, ?_⟩
    · intro phy hphy
      rw [List.cons_append, find_node_skip size hd _ _ hhd, ihA phy hphy]
      rfl
    · rw [List.cons_append, find_node_skip size hd _ _ hhd, ihB]
      rfl
    · intro phy hphy
      rw [List.cons_append, find_node_skip size hd _ _ hhd, ihC phy hphy]
      rfl

/-- C3 witness: a heap `[RESERVED 1 page][FREE 6 pages]`, an allocation of
one page from the FREE node (extra = 5 pages ≥ 2 pages): with frame 555
available the node is split at header address 20480, and with the frame
allocation failing the node is used intact. -/
theorem find_node_split_spec_witness :
    (find_node 4096
       [{ state := heap_state.RESERVED, start := 8192, end_ := 12288 },
        { state := heap_state.FREE, start := 16384, end_ := 40960 }]
       ⟨[555], [true], [], []⟩
      = (some ([{ state := heap_state.RESERVED, start := 8192, end_ := 12288 }],
          { state := heap_state.RESERVED, start := 16384, end_ := 20480 },
          [{ state := heap_state.FREE, start := 24576, end_ := 40960 }]),
         ⟨[], [], [(20480, 555)], []⟩)) ∧
    (find_node 4096
       [{ state := heap_state.RESERVED, start := 8192, end_ := 12288 },
        { state := heap_state.FREE, start := 16384, end_ := 40960 }]
       ⟨[0], [], [], []⟩
      = (some ([{ state := heap_state.RESERVED, start := 8192, end_ := 12288 }],
          { state := heap_state.RESERVED, start := 16384, end_ := 40960 },
          []),
         ⟨[], [], [], []⟩)) := by
  have h := find_node_split_spec 4096
    [{ state := heap_state.RESERVED, start := 8192, end_ := 12288 }] []
    { state := heap_state.FREE, start := 16384, end_ := 40960 }
    [] [] [] [] (by decide) (by decide) (by decide) (by decide)
  exact ⟨h.1 555 (by decide), h.2.1⟩

/-- C1: freeing an ALLOCATED node whose two neighbours are FREE.  The list
does collapse to the single FREE node `[8192, 28672)`, but the
coalesce-with-previous branch reuses the stale `next` pointer in its
`pmm_free(vmm_unmap((uintptr_t) next))`, so the frames handed back to
`pmm` are `[201, 103, 0]` — the payload frame, the next neighbour's header
frame, and a null from unmapping the already-unmapped `next` again — while
the absorbed middle node's header frame 102 is never returned and stays
mapped at 12288.  The claim's "exactly two header frames unmapped and
returned" fails on the code. -/
theorem heap_free_coalesce_bug :
    _heap_free 16384 heapC1 envC1 =
      some ([{ state := heap_state.FREE, start := 8192, end_ := 28672 }],
            { pmmResults := [], vmmMapOk := [],
              vmmMapped := [(4096, 101), (12288, 102)],
              pmmFreed := [201, 103, 0] }) := by
  decide

/-- C2: an N-page `heap_alloc` whose k-th `pmm_alloc` fails (here N = 1,
k = 1, no split is attempted).  The rollback branch executes
`_heap_free(node)` with the node's header pointer, but `_heap_free`
interprets its argument as a payload address and subtracts `FRAME_SIZE`
again, so it dereferences the page below the header — untracked memory,
i.e. undefined behaviour, modelled as `none`.  The claimed
null-return-with-state-restored rollback never happens. -/
theorem heap_alloc_rollback_bug :
    heap_alloc 4096 0 heapC2 envC2 = none := by
  decide

/-- C8 counterexample: line 100 lies in no discovered controller's
half-open range, yet `intr_unroute_irq` empties vector 132's chain — the
unregistration is unconditional, so the routing state is not left
unchanged. -/
theorem intr_unroute_irq_unowned_changes_chain :
    apicsC8.all (fun apic =>
      !(apic.irq_base ≤ tupleC8.irq && tupleC8.irq < apic.irq_base + apic.irqs)) = true ∧
    (intr_unroute_irq apicsC8 tC8 tupleC8 7).1 132 = [] ∧
    tC8 132 = [7] := by
  decide

/-- C4: three successful registrations of H1, H2 and H3 on vector V cons
each new node onto the chain head, and dispatching V then invokes the
handlers head-to-tail: H3, H2, H1 (followed by whatever was on the chain
before). -/
theorem intr_dispatch_lifo (V H1 H2 H3 : Nat) (t0 : IntrTable) :
    let r1 := intr_route_intr true t0 V H1
    let r2 := intr_route_intr true r1.2.1 V H2
    let r3 := intr_route_intr true r2.2.1 V H3
    r1.1 = true ∧ r2.1 = true ∧ r3.1 = true ∧
    r3.2.1 V = H3 :: H2 :: H1 :: t0 V ∧
    (intr_dispatch r3.2.1 V).filter isInvoke
      = Event.invoke H3 :: Event.invoke H2 :: Event.invoke H1
          :: (t0 V).map Event.invoke := by
  refine ⟨rfl, rfl, rfl, ?_, ?_⟩
  · simp [intr_route_intr, _intr_route_intr, table_set]
  · have hchain :
      (intr_route_intr true
        (intr_route_intr true (intr_route_intr true t0 V H1).2.1 V H2).2.1
        V H3).2.1 V = H3 :: H2 :: H1 :: t0 V := by
      simp [intr_route_intr, _intr_route_intr, table_set]
    simp only [intr_dispatch, hchain, List.filter_append]
    split <;> simp [isInvoke, isAck, filter_isInvoke_map_invoke]

/-- C5: dispatching a vector in the architectural fault range (id ≤
FAULT31) or the spurious vector emits no `ic_ack`; dispatching any other
vector emits `ic_ack` exactly once, as the very first event, before any
handler invocation. -/
theorem intr_dispatch_ack_policy (t : IntrTable) (intr : Nat) :
    ((intr ≤ FAULT31 ∨ intr = SPURIOUS) →
       (intr_dispatch t intr).filter isAck = []) ∧
    (FAULT31 < intr → intr ≠ SPURIOUS →
       ∃ rest, intr_dispatch t intr = Event.ack intr :: rest ∧
         rest.filter isAck = []) := by
  constructor
  · intro h
    have hcond : ¬(FAULT31 < intr ∧ intr ≠ SPURIOUS) := by
      rcases h with h | h
      · exact fun hc => absurd hc.1 (Nat.not_lt.mpr h)
      · exact fun hc => hc.2 h
    simp only [intr_dispatch, if_neg hcond, List.nil_append]
    cases ht : t intr with
    | nil => simp [isAck]
    | cons a l => simp [isAck]
  · intro h1 h2
    refine ⟨(match t intr with
             | [] => [Event.panicked intr]
             | chain => chain.map Event.invoke), ?_, ?_⟩
    · simp [intr_dispatch, if_pos (And.intro h1 h2)]
    · cases ht : t intr with
      | nil => simp [isAck]
      | cons a l => simp [isAck]

/-- C5 witness: vector 14 (the page-fault vector) is never acknowledged,
while vector 0x40 is acknowledged once, ahead of the handlers. -/
theorem intr_dispatch_ack_policy_witness :
    (intr_dispatch (fun _ => [5]) 14).filter isAck = [] ∧
    (∃ rest, intr_dispatch (fun _ => [5]) 64 = Event.ack 64 :: rest ∧
       rest.filter isAck = []) :=
  ⟨(intr_dispatch_ack_policy (fun _ => [5]) 14).1 (Or.inl (by decide)),
   (intr_dispatch_ack_policy (fun _ => [5]) 64).2 (by decide) (by decide)⟩

/-- C6: dispatching a vector whose chain is empty invokes no handler and
ends in a panic that carries the vector number (the source's message is
"unhandled interrupt %d" with the id interpolated, and `panic` does not
return). -/
theorem intr_dispatch_empty_chain_panics (t : IntrTable) (intr : Nat)
    (h : t intr = []) :
    (intr_dispatch t intr).filter isInvoke = [] ∧
    ∃ pre, intr_dispatch t intr = pre ++ [Event.panicked intr] := by
  constructor
  · simp only [intr_dispatch, h, List.filter_append]
    split <;> simp [isInvoke]
  · simp only [intr_dispatch, h]
    split
    · exact ⟨[Event.ack intr], rfl⟩
    · exact ⟨[], rfl⟩

/-- C6 witness: firing vector 0x21 with an empty chain. -/
theorem intr_dispatch_empty_chain_panics_witness :
    (intr_dispatch (fun _ => []) 33).filter isInvoke = [] ∧
    ∃ pre, intr_dispatch (fun _ => []) 33 = pre ++ [Event.panicked 33] :=
  intr_dispatch_empty_chain_panics (fun _ => []) 33 rfl

/-- The source's ownership test, spelled out. -/
theorem irq_in_apic_iff (apic : ioapic_t) (irq : Nat) :
    irq_in_apic apic irq = true ↔
      apic.irq_base ≤ irq ∧ irq < apic.irq_base + apic.irqs - 1 := by
  simp [irq_in_apic]

/-- A line the source's test accepts lies in the half-open ownership
range. -/
theorem irq_in_apic_half_open (apic : ioapic_t) (irq : Nat)
    (h : irq_in_apic apic irq = true) :
    apic.irq_base ≤ irq ∧ irq < apic.irq_base + apic.irqs := by
  rcases (irq_in_apic_iff apic irq).mp h with ⟨h1, h2⟩
  exact ⟨h1, Nat.lt_of_lt_of_le h2 (Nat.sub_le _ 1)⟩

/-- The register-IRQ loop: success implies a matching record, on which the
handler was pushed and which was programmed; no half-open match at all
means failure with nothing registered and no controller touched. -/
theorem intr_route_irq_go_spec (mallocOk : Bool) (t : IntrTable)
    (tuple : irq_tuple_t) (handler intr : Nat) (apics : List ioapic_t) :
    ((intr_route_irq_go mallocOk t tuple handler intr apics).1 = true →
       ∃ apic, apic ∈ apics ∧ apic.irq_base ≤ tuple.irq ∧
         tuple.irq < apic.irq_base + apic.irqs ∧
         (intr_route_irq_go mallocOk t tuple handler intr apics).2.1
           = table_set t intr (handler :: t intr) ∧
         Event.route apic.id tuple intr
           ∈ (intr_route_irq_go mallocOk t tuple handler intr apics).2.2) ∧
    ((∀ apic ∈ apics,
        ¬(apic.irq_base ≤ tuple.irq ∧ tuple.irq < apic.irq_base + apic.irqs)) →
       intr_route_irq_go mallocOk t tuple handler intr apics = (false, t, [])) := by
  induction apics with
  | nil => exact ⟨fun h => absurd h (by simp [intr_route_irq_go]), fun _ => rfl⟩
  | cons apic rest ih =>
    by_cases hc : irq_in_apic apic tuple.irq = true
    · constructor
      · intro hok
        rcases irq_in_apic_half_open apic tuple.irq hc with ⟨h1, h2⟩
        cases mallocOk with
        | false =>
          exact absurd hok (by simp [intr_route_irq_go, hc, _intr_route_intr])
        | true =>
          refine ⟨apic, List.mem_cons_self _ _, h1, h2, ?_, ?_⟩
          · simp [intr_route_irq_go, hc, _intr_route_intr]
          · simp [intr_route_irq_go, hc, _intr_route_intr]
      · intro hno
        exact absurd (irq_in_apic_half_open apic tuple.irq hc)
          (hno apic (List.mem_cons_self _ _))
    · have hgo : intr_route_irq_go mallocOk t tuple handler intr (apic :: rest)
          = intr_route_irq_go mallocOk t tuple handler intr rest := by
        simp [intr_route_irq_go, hc]
      constructor
      · intro hok
        rw [hgo] at hok ⊢
        rcases ih.1 hok with ⟨a, hmem, h1, h2, ht, hev⟩
        exact ⟨a, List.mem_cons_of_mem _ hmem, h1, h2, ht, hev⟩
      · intro hno
        rw [hgo]
        exact ih.2 (fun a ha => hno a (List.mem_cons_of_mem _ ha))

/-- C7: `intr_route_irq` succeeds only when some discovered controller's
half-open range `[irq_base, irq_base + irqs)` contains the line, in which
case the handler has been pushed on vector `(irq % IRQS) + IRQ0` and that
controller's `ioapic_route` has been issued; when no controller's range
contains the line the call returns false, the table is untouched and no
controller call is made. -/
theorem intr_route_irq_owner_spec (apics : List ioapic_t) (mallocOk : Bool)
    (t : IntrTable) (tuple : irq_tuple_t) (handler : Nat) :
    ((intr_route_irq apics mallocOk t tuple handler).1 = true →
       ∃ apic, apic ∈ apics ∧ apic.irq_base ≤ tuple.irq ∧
         tuple.irq < apic.irq_base + apic.irqs ∧
         (intr_route_irq apics mallocOk t tuple handler).2.1
           = table_set t ((tuple.irq % IRQS) + IRQ0)
               (handler :: t ((tuple.irq % IRQS) + IRQ0)) ∧
         Event.route apic.id tuple ((tuple.irq % IRQS) + IRQ0)
           ∈ (intr_route_irq apics mallocOk t tuple handler).2.2) ∧
    ((∀ apic ∈ apics,
        ¬(apic.irq_base ≤ tuple.irq ∧ tuple.irq < apic.irq_base + apic.irqs)) →
       intr_route_irq apics mallocOk t tuple handler = (false, t, [])) :=
  intr_route_irq_go_spec mallocOk t tuple handler ((tuple.irq % IRQS) + IRQ0) apics

/-- C7 witness: with one controller owning lines 0..15, routing line 3
succeeds onto vector 35 after programming APIC 9, and routing line 100
fails without touching anything. -/
theorem intr_route_irq_owner_spec_witness :
    (∃ apic, apic ∈ [({ id := 9, irq_base := 0, irqs := 16 } : ioapic_t)] ∧
       apic.irq_base ≤ 3 ∧ 3 < apic.irq_base + apic.irqs ∧
       (intr_route_irq [{ id := 9, irq_base := 0, irqs := 16 }] true tC8
          { irq := 3, active_polarity := polarity_t.POLARITY_HIGH,
            trigger := trigger_t.TRIGGER_EDGE } 7).2.1
         = table_set tC8 35 (7 :: tC8 35) ∧
       Event.route apic.id
          { irq := 3, active_polarity := polarity_t.POLARITY_HIGH,
            trigger := trigger_t.TRIGGER_EDGE } 35
         ∈ (intr_route_irq [{ id := 9, irq_base := 0, irqs := 16 }] true tC8
              { irq := 3, active_polarity := polarity_t.POLARITY_HIGH,
                trigger := trigger_t.TRIGGER_EDGE } 7).2.2) ∧
    intr_route_irq apicsC8 true tC8 tupleC8 7 = (false, tC8, []) :=
  ⟨((intr_route_irq_owner_spec [{ id := 9, irq_base := 0, irqs := 16 }] true tC8
      { irq := 3, active_polarity := polarity_t.POLARITY_HIGH,
        trigger := trigger_t.TRIGGER_EDGE } 7).1 (by decide)),
   ((intr_route_irq_owner_spec apicsC8 true tC8 tupleC8 7).2 (by decide))⟩

/-- C8 amended: unrouting a line owned by no discovered controller masks
nothing and cannot crash, but it still performs the vector-only
unregistration on vector `(irq % IRQS) + IRQ0`; the routing state is
unchanged exactly when the handler is absent from that vector's chain. -/
theorem intr_unroute_irq_unowned_amended (apics : List ioapic_t)
    (t : IntrTable) (tuple : irq_tuple_t) (handler : Nat)
    (hno : ∀ apic ∈ apics,
      ¬(apic.irq_base ≤ tuple.irq ∧ tuple.irq < apic.irq_base + apic.irqs)) :
    (intr_unroute_irq apics t tuple handler).2.filter isMask = [] ∧
    intr_unroute_irq apics t tuple handler
      = _intr_unroute_intr t ((tuple.irq % IRQS) + IRQ0) handler ∧
    (handler ∉ t ((tuple.irq % IRQS) + IRQ0) →
       (intr_unroute_irq apics t tuple handler).1 = t ∧
       (intr_unroute_irq apics t tuple handler).2 = []) := by
  have hmask : (apics.filterMap (fun apic =>
      if irq_in_apic apic tuple.irq then some (Event.mask apic.id tuple)
      else none)) = [] := by
    rw [List.filterMap_eq_nil_iff]
    intro apic ha
    have : ¬ irq_in_apic apic tuple.irq = true :=
      fun hc => hno apic ha (irq_in_apic_half_open apic tuple.irq hc)
    simp [this]
  have heq : intr_unroute_irq apics t tuple handler
      = _intr_unroute_intr t ((tuple.irq % IRQS) + IRQ0) handler := by
    simp [intr_unroute_irq, hmask]
  refine ⟨?_, heq, ?_⟩
  · rw [heq]
    unfold _intr_unroute_intr
    split <;> simp [isMask]
  · intro habs
    rw [heq]
    unfold _intr_unroute_intr
    rw [if_neg habs]
    exact ⟨rfl, rfl⟩

/-- Every event emitted by `_intr_route_intr` is a handler installation
(and in particular not a controller call). -/
theorem route_inner_installs (mallocOk : Bool) (t : IntrTable)
    (intr handler : Nat) :
    ∀ ev ∈ (_intr_route_intr mallocOk t intr handler).2.2,
      isInstall ev = true ∧ isRoute ev = false := by
  unfold _intr_route_intr
  split <;> simp [isInstall, isRoute]

/-- Every event emitted by `_intr_unroute_intr` is a handler removal. -/
theorem unroute_inner_removes (t : IntrTable) (intr handler : Nat) :
    ∀ ev ∈ (_intr_unroute_intr t intr handler).2,
      isRemove ev = true ∧ isMask ev = false := by
  unfold _intr_unroute_intr
  split <;> simp [isRemove, isMask]

/-- Every event of the masking pass of `intr_unroute_irq` is an
`ioapic_mask` call. -/
theorem mask_pass_masks (apics : List ioapic_t) (tuple : irq_tuple_t) :
    ∀ ev ∈ apics.filterMap (fun apic =>
        if irq_in_apic apic tuple.irq then some (Event.mask apic.id tuple)
        else none),
      isMask ev = true ∧ isRemove ev = false := by
  intro ev hev
  rcases List.mem_filterMap.mp hev with ⟨apic, -, hf⟩
  split at hf
  · cases hf
    exact ⟨rfl, rfl⟩
  · exact absurd hf (by simp)

/-- A trace made of a block of `p`-events followed by a block of
`q`-events has every `p`-event before every `q`-event. -/
theorem precedesAll_of_parts (p q : Event → Bool) (A B : List Event)
    (hA : ∀ x ∈ A, p x = true ∧ q x = false)
    (hB : ∀ x ∈ B, q x = true ∧ p x = false) :
    precedesAll p q (A ++ B) := by
  have hApq : A.filter (fun ev => p ev || q ev) = A :=
    List.filter_eq_self.mpr (fun x hx => by simp [(hA x hx).1])
  have hBpq : B.filter (fun ev => p ev || q ev) = B :=
    List.filter_eq_self.mpr (fun x hx => by simp [(hB x hx).1])
  have hAp : A.filter p = A :=
    List.filter_eq_self.mpr (fun x hx => by simp [(hA x hx).1])
  have hAq : A.filter q = [] :=
    List.filter_eq_nil_iff.mpr (fun x hx => by simp [(hA x hx).2])
  have hBp : B.filter p = [] :=
    List.filter_eq_nil_iff.mpr (fun x hx => by simp [(hB x hx).2])
  have hBq : B.filter q = B :=
    List.filter_eq_self.mpr (fun x hx => by simp [(hB x hx).1])
  unfold precedesAll
  rw [List.filter_append, List.filter_append, List.filter_append,
      hApq, hBpq, hAp, hAq, hBp, hBq, List.append_nil, List.nil_append]

/-- In the register-IRQ loop's trace, every handler installation precedes
every `ioapic_route` call. -/
theorem intr_route_irq_go_ordered (mallocOk : Bool) (t : IntrTable)
    (tuple : irq_tuple_t) (handler intr : Nat) (apics : List ioapic_t) :
    precedesAll isInstall isRoute
      (intr_route_irq_go mallocOk t tuple handler intr apics).2.2 := by
  induction apics with
  | nil => simp [intr_route_irq_go, precedesAll]
  | cons apic rest ih =>
    by_cases hc : irq_in_apic apic tuple.irq = true
    · have htr : (intr_route_irq_go mallocOk t tuple handler intr (apic :: rest)).2.2
          = (_intr_route_intr mallocOk t intr handler).2.2
              ++ [Event.route apic.id tuple intr] := by
        simp [intr_route_irq_go, hc]
      rw [htr]
      exact precedesAll_of_parts _ _ _ _
        (route_inner_installs mallocOk t intr handler)
        (by simp [isRoute, isInstall])
    · simpa [intr_route_irq_go, hc] using ih

/-- C9: within one `intr_route_irq` call the handler installation (when it
happens) strictly precedes the `ioapic_route` call, and within one
`intr_unroute_irq` call every `ioapic_mask` strictly precedes the handler
removal. -/
theorem intr_irq_install_mask_ordering (apics : List ioapic_t)
    (mallocOk : Bool) (t t2 : IntrTable) (tuple : irq_tuple_t)
    (handler handler2 : Nat) :
    precedesAll isInstall isRoute
      (intr_route_irq apics mallocOk t tuple handler).2.2 ∧
    precedesAll isMask isRemove
      (intr_unroute_irq apics t2 tuple handler2).2 := by
  constructor
  · exact intr_route_irq_go_ordered mallocOk t tuple handler
      ((tuple.irq % IRQS) + IRQ0) apics
  · have : (intr_unroute_irq apics t2 tuple handler2).2
        = (apics.filterMap (fun apic =>
            if irq_in_apic apic tuple.irq then some (Event.mask apic.id tuple)
            else none))
          ++ (_intr_unroute_intr t2 ((tuple.irq % IRQS) + IRQ0) handler2).2 := by
      simp [intr_unroute_irq]
    rw [this]
    exact precedesAll_of_parts _ _ _ _
      (mask_pass_masks apics tuple)
      (unroute_inner_removes t2 ((tuple.irq % IRQS) + IRQ0) handler2)

/-- The register-IRQ loop under a failed chain-node allocation: when some
record matches the line, the loop returns false and leaves the table
untouched, yet has issued `ioapic_route` on the matching record without
installing any handler. -/
theorem intr_route_irq_go_malloc_fail (t : IntrTable) (tuple : irq_tuple_t)
    (handler intr : Nat) (apics : List ioapic_t) :
    (∃ apic ∈ apics, irq_in_apic apic tuple.irq = true) →
    (intr_route_irq_go false t tuple handler intr apics).1 = false ∧
    (intr_route_irq_go false t tuple handler intr apics).2.1 = t ∧
    (∃ apic ∈ apics, irq_in_apic apic tuple.irq = true ∧
       Event.route apic.id tuple intr
         ∈ (intr_route_irq_go false t tuple handler intr apics).2.2) ∧
    ((intr_route_irq_go false t tuple handler intr apics).2.2).filter
      isInstall = [] := by
  induction apics with
  | nil =>
    rintro ⟨a, ha, -⟩
    exact absurd ha (List.not_mem_nil a)
  | cons apic rest ih =>
    intro hmatch
    by_cases hc : irq_in_apic apic tuple.irq = true
    · refine ⟨?_, ?_, ⟨apic, List.mem_cons_self _ _, hc, ?_⟩, ?_⟩ <;>
        simp [intr_route_irq_go, hc, _intr_route_intr, isInstall]
    · have hgo : intr_route_irq_go false t tuple handler intr (apic :: rest)
          = intr_route_irq_go false t tuple handler intr rest := by
        simp [intr_route_irq_go, hc]
      have hrest : ∃ a ∈ rest, irq_in_apic a tuple.irq = true := by
        rcases hmatch with ⟨a, ha, hma⟩
        rcases List.mem_cons.mp ha with rfl | ha
        · exact absurd hma hc
        · exact ⟨a, ha, hma⟩
      rcases ih hrest with ⟨h1, h2, ⟨a, ha, hma, hev⟩, h4⟩
      rw [hgo]
      exact ⟨h1, h2, ⟨a, List.mem_cons_of_mem _ ha, hma, hev⟩, h4⟩

/-- C10: when a controller record matches the line but the chain-node
allocation fails, `intr_route_irq` returns false with the handler table
untouched, yet `ioapic_route` has been issued for the line's computed
vector — the failure is not atomic with respect to controller state. -/
theorem intr_route_irq_malloc_fail_not_atomic (apics : List ioapic_t)
    (t : IntrTable) (tuple : irq_tuple_t) (handler : Nat)
    (hmatch : ∃ apic ∈ apics, irq_in_apic apic tuple.irq = true) :
    (intr_route_irq apics false t tuple handler).1 = false ∧
    (intr_route_irq apics false t tuple handler).2.1 = t ∧
    (∃ apic ∈ apics, irq_in_apic apic tuple.irq = true ∧
       Event.route apic.id tuple ((tuple.irq % IRQS) + IRQ0)
         ∈ (intr_route_irq apics false t tuple handler).2.2) ∧
    ((intr_route_irq apics false t tuple handler).2.2).filter isInstall
      = [] :=
  intr_route_irq_go_malloc_fail t tuple handler ((tuple.irq % IRQS) + IRQ0)
    apics hmatch

/-- C10 witness: line 2 is owned by `apicsC8`; with the allocation failing,
the call reports failure, installs nothing, but still programs APIC 1 to
deliver vector 34. -/
theorem intr_route_irq_malloc_fail_not_atomic_witness :
    (intr_route_irq apicsC8 false tC8
       { irq := 2, active_polarity := polarity_t.POLARITY_HIGH,
         trigger := trigger_t.TRIGGER_EDGE } 7).1 = false ∧
    (intr_route_irq apicsC8 false tC8
       { irq := 2, active_polarity := polarity_t.POLARITY_HIGH,
         trigger := trigger_t.TRIGGER_EDGE } 7).2.1 = tC8 ∧
    (∃ apic ∈ apicsC8, irq_in_apic apic 2 = true ∧
       Event.route apic.id
         { irq := 2, active_polarity := polarity_t.POLARITY_HIGH,
           trigger := trigger_t.TRIGGER_EDGE } 34
         ∈ (intr_route_irq apicsC8 false tC8
             { irq := 2, active_polarity := polarity_t.POLARITY_HIGH,
               trigger := trigger_t.TRIGGER_EDGE } 7).2.2) ∧
    ((intr_route_irq apicsC8 false tC8
       { irq := 2, active_polarity := polarity_t.POLARITY_HIGH,
         trigger := trigger_t.TRIGGER_EDGE } 7).2.2).filter isInstall = [] :=
  intr_route_irq_malloc_fail_not_atomic apicsC8 tC8
    { irq := 2, active_polarity := polarity_t.POLARITY_HIGH,
      trigger := trigger_t.TRIGGER_EDGE } 7
    ⟨{ id := 1, irq_base := 0, irqs := 4 }, by decide, by decide⟩

/-- C8 amended witness: unrouting line 100 (owned by nobody) with a
handler that is on no chain is a complete no-op. -/
theorem intr_unroute_irq_unowned_amended_witness :
    (intr_unroute_irq apicsC8 (fun _ => []) tupleC8 9).2.filter isMask = [] ∧
    (intr_unroute_irq apicsC8 (fun _ => []) tupleC8 9).1 = (fun _ => []) ∧
    (intr_unroute_irq apicsC8 (fun _ => []) tupleC8 9).2 = [] := by
  have h := intr_unroute_irq_unowned_amended apicsC8 (fun _ => []) tupleC8 9
    (by decide)
  exact ⟨h.1, (h.2.2 (by decide)).1, (h.2.2 (by decide)).2⟩

end Arc
